import Mathlib

/-!
Shallow embedding of the LinkedIn profile enrichment core
(`src/enrich_linkedin_profiles.py`, `src/lib/utils/linkedin_profile_utils.py`,
`src/lib/apify/linkedin_scraper.py`) and proofs about its behaviour.

Python strings are modelled as `String` at the interface level; the character
manipulation inside the normalizer works on `List Char` (`String.toList`).
Python `str.lower()` is modelled by `Char.toLower` (identical on ASCII, the
character range of LinkedIn handles and URLs).
-/

/-- Boolean prefix test on character lists (models Python's `startswith` and the
internal matching step of `str.replace`). -/
def isPre : List Char → List Char → Bool
  | [], _ => true
  | _ :: _, [] => false
  | a :: ps, b :: ss => a == b && isPre ps ss

/-- Does `pat` occur as a contiguous substring of the list? -/
def hasSubstr (pat : List Char) : List Char → Bool
  | [] => isPre pat []
  | c :: rest => isPre pat (c :: rest) || hasSubstr pat rest

/-- Fuel-driven worker for `pyReplaceEmpty`: scans left to right, deleting each
non-overlapping occurrence of `pat` and continuing after it, exactly as Python's
`str.replace(pat, '')` does for a non-empty `pat`.  The fuel is the length of
the scanned list, which the caller supplies, so the `0` fallback is unreachable. -/
def removeAllAux (pat : List Char) : Nat → List Char → List Char
  | _, [] => []
  | 0, s => s
  | fuel + 1, c :: rest =>
    if isPre pat (c :: rest) then removeAllAux pat fuel (List.drop (pat.length - 1) rest)
    else c :: removeAllAux pat fuel rest

/-- Models Python `s.replace(pat, '')` for a non-empty pattern. -/
def pyReplaceEmpty (s pat : List Char) : List Char :=
  removeAllAux pat s.length s

/-- Drop trailing occurrences of `c` (the right half of Python `str.strip`). -/
def dropTrailing (c : Char) (s : List Char) : List Char :=
  (s.reverse.dropWhile (fun x => x == c)).reverse

/-- Models Python `s.strip('/')` specialised to one strip character. -/
def pyStrip (c : Char) (s : List Char) : List Char :=
  dropTrailing c (s.dropWhile (fun x => x == c))

/-- The three host prefixes removed by `normalize_linkedin_handle` (source
`linkedin_profile_utils.py` lines 26-28). -/
def hostPat1 : List Char := "https://www.linkedin.com".toList

/-- Second removed host pattern. -/
def hostPat2 : List Char := "https://linkedin.com".toList

/-- Third removed host pattern. -/
def hostPat3 : List Char := "http://www.linkedin.com".toList

/-- The expected path-segment marker `in/`. -/
def inSeg : List Char := "in/".toList

/-- Character-list core of `normalize_linkedin_handle`
(`linkedin_profile_utils.py` lines 10-36): remove the three host prefixes
anywhere in the string, strip `/` from both ends, prepend `in/` when missing,
prepend `/` and lower-case everything. -/
def normChars (s : List Char) : List Char :=
  let h1 := pyReplaceEmpty s hostPat1
  let h2 := pyReplaceEmpty h1 hostPat2
  let h3 := pyReplaceEmpty h2 hostPat3
  let h4 := pyStrip '/' h3
  let h5 := if isPre inSeg h4 then h4 else inSeg ++ h4
  ('/' :: h5).map Char.toLower

/-- The embedded source function `normalize_linkedin_handle`, on `String`. -/
def normalize_linkedin_handle (s : String) : String :=
  (normChars s.toList).asString

/-!  ## Apify profile payloads and the lookup dictionary  -/

/-- JSON-ish values of an Apify profile payload (the Python dict values the
source reads: strings, numbers, or `None`/absent). -/
inductive PyVal
  | null
  | str (s : String)
  | int (n : Int)
deriving DecidableEq

/-- Python truthiness on the payload values the source tests with `if v:`. -/
def PyVal.isTruthy : PyVal → Bool
  | .null => false
  | .str s => !(s == "")
  | .int n => !(n == 0)

/-- The string carried by a `PyVal` (the source only applies string methods to
values its contract types as strings; other cases are never exercised by the
theorems, which carry a well-typedness hypothesis where it matters). -/
def PyVal.asStr : PyVal → String
  | .str s => s
  | _ => ""

/-- A raw Apify profile: the Python dict, as a key/value list. -/
abbrev ApifyProfile := List (String × PyVal)

/-- Python `profile.get(key, default)` on an Apify profile dict. -/
def pyGetD (p : ApifyProfile) (k : String) (d : PyVal) : PyVal :=
  match p.find? (fun kv => kv.1 == k) with
  | some kv => kv.2
  | none => d

/-- Python `profile.get(key)` (default `None`). -/
def pyGet (p : ApifyProfile) (k : String) : PyVal :=
  pyGetD p k .null

/-- Python dict assignment `d[k] = v`: replace in place, else append. -/
def dictInsert {β : Type} (k : String) (v : β) : List (String × β) → List (String × β)
  | [] => [(k, v)]
  | (k', v') :: rest => if k' == k then (k, v) :: rest else (k', v') :: dictInsert k v rest

/-- Python `d.get(k)` on the lookup dictionary. -/
def dictGet? {β : Type} (k : String) : List (String × β) → Option β
  | [] => none
  | (k', v) :: rest => if k' == k then some v else dictGet? k rest

/-- One iteration of the loop in `create_lookup_from_apify_profiles`
(`linkedin_profile_utils.py` lines 51-55): skip the profile when its
`publicIdentifier` (default `''`) is falsy, otherwise index it under the
normalized handle. -/
def lookupInsertStep (handle_to_profile : List (String × ApifyProfile))
    (profile : ApifyProfile) : List (String × ApifyProfile) :=
  let public_id := pyGetD profile "publicIdentifier" (.str "")
  if public_id.isTruthy then
    dictInsert (normalize_linkedin_handle public_id.asStr) profile handle_to_profile
  else handle_to_profile

/-- Embeds `create_lookup_from_apify_profiles` (`linkedin_profile_utils.py` lines
39-56): index profiles by normalized `publicIdentifier`, skipping profiles
whose `publicIdentifier` is absent or falsy; later profiles overwrite earlier
ones with the same normalized handle. -/
def create_lookup_from_apify_profiles (apify_profiles : List ApifyProfile) :
    List (String × ApifyProfile) :=
  apify_profiles.foldl lookupInsertStep []

/-!  ## Guest records and the partition step  -/

/-- A guest tuple as handled by the source: either the 3-field or the 4-field
variant (`linkedin_profile_utils.py` lines 64, 159-170).  The 4th field models
the database `retry_count`, possibly SQL `NULL`. -/
inductive GuestRecord
  | g3 (luma_guest_api_id guest_name linkedin_handle : String)
  | g4 (luma_guest_api_id guest_name linkedin_handle : String) (retry_count : Option Nat)
deriving DecidableEq

/-- Models `guest_record[0]`. -/
def GuestRecord.apiId : GuestRecord → String
  | .g3 i _ _ => i
  | .g4 i _ _ _ => i

/-- Models `guest_record[2]`. -/
def GuestRecord.handle : GuestRecord → String
  | .g3 _ _ h => h
  | .g4 _ _ h _ => h

/-- Embeds `match_guest_to_apify_profile` (`linkedin_profile_utils.py` lines 59-73). -/
def match_guest_to_apify_profile (guest_record : GuestRecord)
    (apify_profile_lookup : List (String × ApifyProfile)) : Option ApifyProfile :=
  dictGet? (normalize_linkedin_handle guest_record.handle) apify_profile_lookup

/-- Embeds `partition_guests_by_profile_availability` (`linkedin_profile_utils.py`
lines 76-99).  Note the Python truthiness test `if apify_profile:` — a matched
but *empty* profile dict is falsy and lands in the second output. -/
def partition_guests_by_profile_availability (pending_guests : List GuestRecord)
    (apify_profile_lookup : List (String × ApifyProfile)) :
    List (ApifyProfile × GuestRecord) × List GuestRecord :=
  match pending_guests with
  | [] => ([], [])
  | guest :: rest =>
    let (withP, withoutP) := partition_guests_by_profile_availability rest apify_profile_lookup
    match match_guest_to_apify_profile guest apify_profile_lookup with
    | some apify_profile =>
      if apify_profile.isEmpty then (withP, guest :: withoutP)
      else ((apify_profile, guest) :: withP, withoutP)
    | none => (withP, guest :: withoutP)

/-!  ## Database records built by the two record builders  -/

/-- A database cell value.  `payload p` models the JSON string
`json.dumps(apify_profile)` (serialisation is injective, so the verbatim
payload is modelled by the dict itself). -/
inductive DBValue
  | null
  | str (s : String)
  | bool (b : Bool)
  | int (n : Int)
  | pyval (v : PyVal)
  | payload (p : ApifyProfile)
deriving DecidableEq

/-- Embeds `build_enriched_profile_record` (`linkedin_profile_utils.py` lines
102-151): the 32-cell success row. -/
def build_enriched_profile_record (apify_profile : ApifyProfile)
    (guest_record : GuestRecord) : List DBValue :=
  [ .str guest_record.apiId,
    .str guest_record.handle,
    .str "apify",
    .bool true,
    .null,
    .pyval (pyGet apify_profile "fullName"),
    .pyval (pyGet apify_profile "firstName"),
    .pyval (pyGet apify_profile "lastName"),
    .pyval (pyGet apify_profile "headline"),
    .pyval (pyGet apify_profile "about"),
    .pyval (pyGet apify_profile "publicIdentifier"),
    .pyval (pyGet apify_profile "linkedinUrl"),
    .pyval (pyGet apify_profile "connections"),
    .pyval (pyGet apify_profile "followers"),
    .pyval (pyGet apify_profile "jobTitle"),
    .pyval (pyGet apify_profile "companyName"),
    .pyval (pyGet apify_profile "companyIndustry"),
    .pyval (pyGet apify_profile "companyWebsite"),
    .pyval (pyGet apify_profile "companyLinkedin"),
    .pyval (pyGet apify_profile "companyFoundedIn"),
    .pyval (pyGet apify_profile "companySize"),
    .pyval (pyGet apify_profile "currentJobDurationInYrs"),
    .pyval (pyGet apify_profile "addressWithCountry"),
    .pyval (pyGet apify_profile "addressCountryOnly"),
    .pyval (pyGet apify_profile "addressWithoutCountry"),
    .pyval (pyGet apify_profile "profilePic"),
    .pyval (pyGet apify_profile "profilePicHighQuality"),
    .pyval (pyGet apify_profile "topSkillsByEndorsements"),
    .payload apify_profile,
    .int 0,
    .null,
    .null ]

/-- The effective retry count used by `build_missing_profile_record`: the
4-field variant uses `db_retry_count or 0`, the 3-field variant the
`current_retry_count` argument (0 at every call site in the source). -/
def GuestRecord.effectiveRetry (g : GuestRecord) (current_retry_count : Nat) : Nat :=
  match g with
  | .g3 _ _ _ => current_retry_count
  | .g4 _ _ _ r => r.getD 0

/-- Embeds `build_missing_profile_record` (`linkedin_profile_utils.py` lines 154-191):
the 32-cell failure row.  `now` models `int(time.time() * 1000)` in epoch
milliseconds. -/
def build_missing_profile_record (guest_record : GuestRecord) (now : Nat)
    (current_retry_count : Nat) : List DBValue :=
  let new_retry_count := guest_record.effectiveRetry current_retry_count + 1
  let backoff_minutes := new_retry_count ^ 2 * 5
  let next_retry_timestamp := now + backoff_minutes * 60 * 1000
  [ .str guest_record.apiId,
    .str guest_record.handle,
    .str "apify",
    .bool false,
    .str "Profile not returned by Apify API" ]
  ++ List.replicate 23 .null
  ++ [ .null,
    .int new_retry_count,
    .int now,
    .int next_retry_timestamp ]

/-- The 32-entry column list of `upsert_linkedin_profiles`
(`enrich_linkedin_profiles.py` lines 86-119). -/
def upsertColumns : List String :=
  [ "luma_guest_api_id", "linkedin_handle", "record_source", "profile_found",
    "profile_fetch_message", "full_name", "first_name", "last_name", "headline",
    "about", "public_identifier", "linkedin_url", "connections", "followers",
    "job_title", "company_name", "company_industry", "company_website",
    "company_linkedin", "company_founded_in", "company_size",
    "current_job_duration_yrs", "address_with_country", "address_country_only",
    "address_without_country", "profile_pic_url", "profile_pic_high_quality_url",
    "top_skills_by_endorsements", "profile_data", "retry_count", "last_retry_at",
    "next_retry_after" ]

/-- The conflict-key columns of the upsert (`enrich_linkedin_profiles.py`
line 122). -/
def conflictColumns : List String :=
  ["luma_guest_api_id", "linkedin_handle"]

/-!  ## Eligibility selector (`fetch_guests_pending_for_enrichment`)

The selector is the SQL query at `enrich_linkedin_profiles.py` lines 37-62,
embedded here as a function over an explicit database state: LEFT JOIN on the
guest identifier, the WHERE predicate with SQL three-valued semantics on the
nullable columns, ORDER BY `COALESCE(retry_count, 0)` then `last_retry_at`
NULLS FIRST, and LIMIT. -/

/-- A row of `luma.guests` (the columns the query touches). -/
structure Guest where
  luma_guest_api_id : String
  guest_name : String
  linkedin_handle : Option String
deriving DecidableEq

/-- A row of `luma.linkedin_profiles` (the columns the query touches). -/
structure ProfileRow where
  luma_guest_api_id : String
  linkedin_handle : String
  profile_found : Bool
  retry_count : Option Nat
  last_retry_at : Option Nat
  next_retry_after : Option Nat
deriving DecidableEq

/-- The two tables the selector reads. -/
structure DBState where
  guests : List Guest
  linkedin_profiles : List ProfileRow

/-- One row of the LEFT JOIN: the guest plus its matched profile row, if any. -/
abbrev JoinedRow := Guest × Option ProfileRow

/-- Models `FROM luma.guests g LEFT JOIN luma.linkedin_profiles lp ON
lp.luma_guest_api_id = g.luma_guest_api_id`. -/
def leftJoinProfiles (db : DBState) : List JoinedRow :=
  db.guests.flatMap (fun g =>
    match db.linkedin_profiles.filter
        (fun lp => lp.luma_guest_api_id == g.luma_guest_api_id) with
    | [] => [(g, none)]
    | ms => ms.map (fun lp => (g, some lp)))

/-- The WHERE clause (query lines 46-57): non-null handle, and either no
profile row, or `profile_found = FALSE AND retry_count < 3 AND
(next_retry_after IS NULL OR next_retry_after < now)`.  A SQL-`NULL`
`retry_count` makes `retry_count < 3` unknown, hence `false`. -/
def eligiblePred (now : Nat) : JoinedRow → Bool
  | (g, lp?) =>
    g.linkedin_handle.isSome &&
    (match lp? with
     | none => true
     | some lp =>
       (lp.profile_found == false) &&
       (match lp.retry_count with | none => false | some n => decide (n < 3)) &&
       (match lp.next_retry_after with | none => true | some t => decide (t < now)))

/-- Models `COALESCE(lp.retry_count, 0)` (query lines 42 and 59). -/
def retryKey (r : JoinedRow) : Nat :=
  (r.2.bind ProfileRow.retry_count).getD 0

/-- Models `lp.last_retry_at` of a joined row (SQL `NULL` when the row is absent). -/
def lastKey (r : JoinedRow) : Option Nat :=
  r.2.bind ProfileRow.last_retry_at

/-- The `ASC NULLS FIRST` order on a nullable timestamp. -/
def optNatLe : Option Nat → Option Nat → Bool
  | none, _ => true
  | some _, none => false
  | some a, some b => decide (a ≤ b)

/-- The ORDER BY comparison (query lines 58-60): ascending
`COALESCE(retry_count, 0)`, then ascending `last_retry_at` with nulls first. -/
def rowLe (a b : JoinedRow) : Bool :=
  decide (retryKey a < retryKey b) ||
    (retryKey a == retryKey b && optNatLe (lastKey a) (lastKey b))

/-- Insert into a sorted list, keeping it sorted w.r.t. `le`. -/
def insertSorted {α : Type} (le : α → α → Bool) (a : α) : List α → List α
  | [] => [a]
  | b :: bs => if le a b then a :: b :: bs else b :: insertSorted le a bs

/-- Insertion sort; models the (deterministic counterpart of the) SQL sort. -/
def sortByKey {α : Type} (le : α → α → Bool) : List α → List α
  | [] => []
  | a :: as => insertSorted le a (sortByKey le as)

/-- The SELECT list (query lines 38-42): the tuple
`(luma_guest_api_id, guest_name, linkedin_handle, COALESCE(retry_count, 0))`. -/
structure Candidate where
  luma_guest_api_id : String
  guest_name : String
  linkedin_handle : Option String
  retry_count : Nat
deriving DecidableEq

/-- Project a joined row to the selected candidate tuple. -/
def selectRow (r : JoinedRow) : Candidate :=
  ⟨r.1.luma_guest_api_id, r.1.guest_name, r.1.linkedin_handle, retryKey r⟩

/-- The joined rows passing the WHERE clause. -/
def eligibleRows (db : DBState) (now : Nat) : List JoinedRow :=
  (leftJoinProfiles db).filter (eligiblePred now)

/-- Embeds `fetch_guests_pending_for_enrichment` (`enrich_linkedin_profiles.py` lines
18-68): the full query — join, filter, order, limit, project. -/
def fetch_guests_pending_for_enrichment (db : DBState) (now limit : Nat) :
    List Candidate :=
  ((sortByKey rowLe (eligibleRows db now)).take limit).map selectRow

/-!  ## Lookup gateway and the batch run  -/

/-- Outcome of the Apify actor call inside the `try` block of
`get_linkedin_profiles`: either the dataset items, or an exception. -/
inductive ApifyOutcome
  | ok (items : List ApifyProfile)
  | apiError (msg : String)

/-- Embeds `get_linkedin_profiles` (`linkedin_scraper.py` lines 16-73): raises when
the API token is unset; otherwise any exception from the actor call is caught
and an empty list is returned. -/
def get_linkedin_profiles (api_token : Option String) (outcome : ApifyOutcome) :
    Except String (List ApifyProfile) :=
  match api_token with
  | none => .error "APIFY_API_TOKEN not set in environment"
  | some _ =>
    match outcome with
    | .ok items => .ok items
    | .apiError _ => .ok []

/-- The external state one run of `enrich_linkedin_profiles` interacts with:
the selection result (`none` models a failed database connection, which the
source conflates with the truthiness test `if not pending_guests`), the
profiles the gateway returned, and whether the upsert connection / upsert
statement succeed. -/
structure RunEnv where
  selectResult : Option (List GuestRecord)
  apify_profiles : List ApifyProfile
  upsertConnOk : Bool
  upsertOk : Bool

/-- The observable outcome of one run: the counts the source prints
(`Found {n} guests`, `Enriched: {a}`, `Missing: {b}`), whether it reported
failure (the `❌` branch), and the batches handed to the persistence sink. -/
structure RunResult where
  attempted : Nat
  resolved : Nat
  unresolved : Nat
  failed : Bool
  writes : List (List (List DBValue))
deriving DecidableEq

/-- Embeds `upsert_linkedin_profiles` (`enrich_linkedin_profiles.py` lines 71-142):
returns `True` with no write on an empty batch; otherwise attempts the single
batch write when the connection opens, returning the upsert outcome. -/
def upsert_linkedin_profiles (profile_records : List (List DBValue))
    (connOk upsertOk : Bool) : Bool × List (List (List DBValue)) :=
  if profile_records.isEmpty then (true, [])
  else if connOk then (upsertOk, [profile_records])
  else (false, [])

/-- The backoff wait in epoch milliseconds for post-increment retry count `n`:
`n^2 * 5` minutes (`linkedin_profile_utils.py` lines 176-178). -/
def backoffMs (n : Nat) : Nat := n ^ 2 * 5 * 60 * 1000

/-- The 23 Apify payload keys copied into the record, paired with the database
columns they land in, in record order (`linkedin_profile_utils.py` lines
124-146 against `enrich_linkedin_profiles.py` lines 91-114). -/
def resolvedFieldMapping : List (String × String) :=
  [ ("full_name", "fullName"), ("first_name", "firstName"),
    ("last_name", "lastName"), ("headline", "headline"), ("about", "about"),
    ("public_identifier", "publicIdentifier"), ("linkedin_url", "linkedinUrl"),
    ("connections", "connections"), ("followers", "followers"),
    ("job_title", "jobTitle"), ("company_name", "companyName"),
    ("company_industry", "companyIndustry"), ("company_website", "companyWebsite"),
    ("company_linkedin", "companyLinkedin"), ("company_founded_in", "companyFoundedIn"),
    ("company_size", "companySize"),
    ("current_job_duration_yrs", "currentJobDurationInYrs"),
    ("address_with_country", "addressWithCountry"),
    ("address_country_only", "addressCountryOnly"),
    ("address_without_country", "addressWithoutCountry"),
    ("profile_pic_url", "profilePic"),
    ("profile_pic_high_quality_url", "profilePicHighQuality"),
    ("top_skills_by_endorsements", "topSkillsByEndorsements") ]

/-- Embeds `enrich_linkedin_profiles` (`enrich_linkedin_profiles.py` lines 145-209):
the whole batch cycle over an explicit environment.  `now` models the
timestamp taken inside `build_missing_profile_record`. -/
def enrich_linkedin_profiles (env : RunEnv) (now : Nat) : RunResult :=
  match env.selectResult with
  | none => ⟨0, 0, 0, false, []⟩
  | some [] => ⟨0, 0, 0, false, []⟩
  | some pending_guests =>
    let profile_lookup := create_lookup_from_apify_profiles env.apify_profiles
    let parts := partition_guests_by_profile_availability pending_guests profile_lookup
    let enriched_records :=
      parts.1.map (fun pg => build_enriched_profile_record pg.1 pg.2)
    let missing_records :=
      parts.2.map (fun g => build_missing_profile_record g now 0)
    let all_records := enriched_records ++ missing_records
    let up := upsert_linkedin_profiles all_records env.upsertConnOk env.upsertOk
    ⟨pending_guests.length, enriched_records.length, missing_records.length,
      !up.1, up.2⟩

/-- The decision `partition_guests_by_profile_availability` makes for one
guest: a dictionary hit whose stored profile is truthy (non-empty). -/
def guestMatches (lookup : List (String × ApifyProfile)) (g : GuestRecord) : Bool :=
  match match_guest_to_apify_profile g lookup with
  | some p => !p.isEmpty
  | none => false

/-- The profile a matched guest is paired with. -/
def matchedProfile (lookup : List (String × ApifyProfile)) (g : GuestRecord) :
    ApifyProfile :=
  (match_guest_to_apify_profile g lookup).getD []

/-!  ## Theorems  -/

example : normalize_linkedin_handle "https://linkedin.com/in/artsofbaniya/" = "/in/artsofbaniya" := by decide
example : normalize_linkedin_handle "/in/ArtsOfBaniya" = "/in/artsofbaniya" := by decide
example : normalize_linkedin_handle "artsofbaniya" = "/in/artsofbaniya" := by decide
example : normalize_linkedin_handle "https://www.linkedin.com/in/Foo/" = "/in/foo" := by decide
example : normalize_linkedin_handle "" = "/in/" := by decide


/-- Claim C2: for every candidate and timestamp `now`, the failure record has
`found = false` (position of `profile_found`), the fixed diagnostic message,
`retry_count` equal to the candidate's retry count plus one, `last_attempt_at
= now`, and `next_eligible_at = now + backoff(retry_count)` with
`backoff(n) = n^2 * 5` minutes exactly — so retry counts 1, 2, 3 wait exactly
5, 20, 45 minutes, and `next_eligible_at - last_attempt_at` is exactly the
backoff. -/
theorem build_missing_record_correct (g : GuestRecord) (now cur : Nat) :
    (build_missing_profile_record g now cur)[3]? = some (.bool false) ∧
    upsertColumns[3]? = some "profile_found" ∧
    (build_missing_profile_record g now cur)[4]? =
      some (.str "Profile not returned by Apify API") ∧
    upsertColumns[4]? = some "profile_fetch_message" ∧
    (build_missing_profile_record g now cur)[29]? =
      some (.int (g.effectiveRetry cur + 1)) ∧
    upsertColumns[29]? = some "retry_count" ∧
    (build_missing_profile_record g now cur)[30]? = some (.int now) ∧
    upsertColumns[30]? = some "last_retry_at" ∧
    (build_missing_profile_record g now cur)[31]? =
      some (.int (now + backoffMs (g.effectiveRetry cur + 1))) ∧
    upsertColumns[31]? = some "next_retry_after" ∧
    (now + backoffMs (g.effectiveRetry cur + 1)) - now =
      backoffMs (g.effectiveRetry cur + 1) ∧
    backoffMs 1 = 5 * 60 * 1000 ∧
    backoffMs 2 = 20 * 60 * 1000 ∧
    backoffMs 3 = 45 * 60 * 1000 ∧
    (∀ i n h k, (GuestRecord.g4 i n h (some k)).effectiveRetry cur = k) := by
  refine ⟨rfl, rfl, rfl, rfl, rfl, rfl, rfl, rfl, rfl, rfl, ?_, rfl, rfl, rfl,
    fun i n h k => rfl⟩
  exact Nat.add_sub_cancel_left now _

/-- Claim C3: for every lookup result and candidate, the success record has
`found = true`, `retry_count = 0`, `last_attempt_at = null`,
`next_eligible_at = null`, the verbatim raw payload retained in the
`profile_data` position, and each resolved field copied from the result by the
documented field mapping; since none of this depends on the candidate's prior
retry count, a candidate previously at `retry_count = 2` that resolves gets
exactly these reset values. -/
theorem build_enriched_record_correct (p : ApifyProfile) (g : GuestRecord) :
    (build_enriched_profile_record p g)[3]? = some (.bool true) ∧
    upsertColumns[3]? = some "profile_found" ∧
    (build_enriched_profile_record p g)[4]? = some .null ∧
    (build_enriched_profile_record p g)[28]? = some (.payload p) ∧
    upsertColumns[28]? = some "profile_data" ∧
    (build_enriched_profile_record p g)[29]? = some (.int 0) ∧
    upsertColumns[29]? = some "retry_count" ∧
    (build_enriched_profile_record p g)[30]? = some .null ∧
    upsertColumns[30]? = some "last_retry_at" ∧
    (build_enriched_profile_record p g)[31]? = some .null ∧
    upsertColumns[31]? = some "next_retry_after" ∧
    (∀ i colKey, resolvedFieldMapping[i]? = some colKey →
      upsertColumns[5 + i]? = some colKey.1 ∧
      (build_enriched_profile_record p g)[5 + i]? =
        some (.pyval (pyGet p colKey.2))) := by
  refine ⟨rfl, rfl, rfl, rfl, rfl, rfl, rfl, rfl, rfl, rfl, rfl, ?_⟩
  intro i colKey h
  have hi : i < 23 := by
    by_contra hge
    rw [List.getElem?_eq_none] at h
    · exact Option.noConfusion h
    · have hlen : resolvedFieldMapping.length = 23 := rfl
      omega
  interval_cases i <;>
    (simp only [resolvedFieldMapping, List.getElem?_cons_zero,
        List.getElem?_cons_succ, Option.some.injEq] at h) <;>
    subst h <;> exact ⟨rfl, rfl⟩

/-- Witness for C3 at a concrete profile and guest: the first mapped field
(`full_name` ← `fullName`) sits at position 5 of both the column list and the
built record. -/
theorem build_enriched_record_correct_witness :
    upsertColumns[5 + 0]? = some "full_name" ∧
    (build_enriched_profile_record
        [("publicIdentifier", PyVal.str "alice"), ("fullName", PyVal.str "Alice")]
        (GuestRecord.g4 "1" "Alice" "alice" (some 0)))[5 + 0]? =
      some (.pyval (pyGet
        [("publicIdentifier", PyVal.str "alice"), ("fullName", PyVal.str "Alice")]
        "fullName")) :=
  (build_enriched_record_correct
      [("publicIdentifier", PyVal.str "alice"), ("fullName", PyVal.str "Alice")]
      (GuestRecord.g4 "1" "Alice" "alice" (some 0))).2.2.2.2.2.2.2.2.2.2.2
    0 ("full_name", "fullName") rfl

/-- Claim C9: both record builders always produce exactly 32 values, matching
one-to-one and in order the 32-column list of the batch upsert, whose
conflict-key columns (subject identifier, raw handle) are the first two
positions — and both builders put exactly those two values first. -/
theorem record_tuples_match_upsert_columns (p : ApifyProfile) (g : GuestRecord)
    (now cur : Nat) :
    upsertColumns.length = 32 ∧
    conflictColumns = upsertColumns.take 2 ∧
    (build_enriched_profile_record p g).length = 32 ∧
    (build_missing_profile_record g now cur).length = 32 ∧
    (build_enriched_profile_record p g)[0]? = some (.str g.apiId) ∧
    (build_enriched_profile_record p g)[1]? = some (.str g.handle) ∧
    (build_missing_profile_record g now cur)[0]? = some (.str g.apiId) ∧
    (build_missing_profile_record g now cur)[1]? = some (.str g.handle) ∧
    upsertColumns[0]? = some "luma_guest_api_id" ∧
    upsertColumns[1]? = some "linkedin_handle" :=
  ⟨rfl, rfl, rfl, rfl, rfl, rfl, rfl, rfl, rfl, rfl⟩

/-- Claim C7 counterexample: on the empty input string the normalizer does not fail
— there is no `InvalidIdentifier` error anywhere in the source — it returns
the degenerate canonical handle `"/in/"`. -/
theorem normalize_empty_returns_value :
    normalize_linkedin_handle "" = "/in/" := by decide

/-- Claim C7 amended: for the empty input string the normalizer returns the
degenerate canonical handle `"/in/"` instead of failing, and the record flows
through the round like any other — when the index has no `"/in/"` key the
record is simply partitioned as unmatched, and the batch continues. -/
theorem normalize_empty_handled (lookup : List (String × ApifyProfile))
    (g : GuestRecord) (h : g.handle = "") :
    normalize_linkedin_handle g.handle = "/in/" ∧
    (dictGet? "/in/" lookup = none →
      partition_guests_by_profile_availability [g] lookup = ([], [g])) := by
  refine ⟨by rw [h]; decide, fun hl => ?_⟩
  simp only [partition_guests_by_profile_availability, match_guest_to_apify_profile]
  rw [h, show normalize_linkedin_handle "" = "/in/" from by decide, hl]

/-- Witness for C7 amended at a concrete guest and empty lookup. -/
theorem normalize_empty_handled_witness :
    normalize_linkedin_handle (GuestRecord.g3 "1" "n" "").handle = "/in/" ∧
    (dictGet? "/in/" ([] : List (String × ApifyProfile)) = none →
      partition_guests_by_profile_availability [GuestRecord.g3 "1" "n" ""] [] =
        ([], [GuestRecord.g3 "1" "n" ""])) :=
  normalize_empty_handled [] (GuestRecord.g3 "1" "n" "") rfl

/-!  ## Dictionary and partition lemmas  -/

/-- A successful dictionary lookup returns an entry of the dictionary. -/
theorem dictGet?_mem {β : Type} {k : String} {v : β} :
    ∀ {l : List (String × β)}, dictGet? k l = some v → (k, v) ∈ l := by
  intro l
  induction l with
  | nil => intro h; exact Option.noConfusion h
  | cons hd tl ih =>
    obtain ⟨k', v'⟩ := hd
    intro h
    rw [dictGet?] at h
    by_cases hk : (k' == k) = true
    · rw [if_pos hk] at h
      obtain rfl := Option.some.inj h
      obtain rfl := eq_of_beq hk
      exact List.mem_cons_self _ _
    · rw [if_neg hk] at h
      exact List.mem_cons_of_mem _ (ih h)

/-- A key occurs among the dictionary's keys iff looking it up succeeds. -/
theorem mem_keys_iff_dictGet {β : Type} (k : String) :
    ∀ (l : List (String × β)),
      k ∈ l.map Prod.fst ↔ ∃ v, dictGet? k l = some v := by
  intro l
  induction l with
  | nil => simp [dictGet?]
  | cons hd tl ih =>
    obtain ⟨k', v'⟩ := hd
    by_cases hk : k' = k
    · subst hk
      simp [dictGet?]
    · have hbeq : (k' == k) = false := beq_false_of_ne hk
      simp only [List.map_cons, List.mem_cons, dictGet?, hbeq, Bool.false_eq_true,
        if_false, ih]
      constructor
      · rintro (h | h)
        · exact absurd h.symm hk
        · exact h
      · exact Or.inr

/-- Membership after a dictionary insert: the new entry or an old one. -/
theorem dictInsert_mem {β : Type} {k : String} {v : β} {kv : String × β} :
    ∀ {l : List (String × β)}, kv ∈ dictInsert k v l → kv = (k, v) ∨ kv ∈ l := by
  intro l
  induction l with
  | nil => intro h; simp [dictInsert] at h; exact Or.inl h
  | cons hd tl ih =>
    obtain ⟨k', v'⟩ := hd
    intro h
    rw [dictInsert] at h
    by_cases hk : (k' == k) = true
    · rw [if_pos hk] at h
      rcases List.mem_cons.mp h with h1 | h1
      · exact Or.inl h1
      · exact Or.inr (List.mem_cons_of_mem _ h1)
    · rw [if_neg hk] at h
      rcases List.mem_cons.mp h with h1 | h1
      · exact Or.inr (h1 ▸ List.mem_cons_self _ _)
      · rcases ih h1 with h2 | h2
        · exact Or.inl h2
        · exact Or.inr (List.mem_cons_of_mem _ h2)

/-- The partition step is the pair of filters along `guestMatches`. -/
theorem partition_eq_filter (gs : List GuestRecord)
    (lookup : List (String × ApifyProfile)) :
    partition_guests_by_profile_availability gs lookup =
      ((gs.filter (guestMatches lookup)).map (fun g => (matchedProfile lookup g, g)),
       gs.filter (fun g => !guestMatches lookup g)) := by
  induction gs with
  | nil => rfl
  | cons g rest ih =>
    simp only [partition_guests_by_profile_availability, ih]
    cases hm : match_guest_to_apify_profile g lookup with
    | none => simp [guestMatches, hm, List.filter_cons]
    | some p =>
      by_cases hp : p.isEmpty
      · simp [guestMatches, hm, hp, List.filter_cons]
      · simp [guestMatches, matchedProfile, hm, hp, List.filter_cons]

/-- Splitting a list by a predicate preserves its length. -/
theorem length_filter_split {α : Type} (p : α → Bool) (l : List α) :
    (l.filter p).length + (l.filter (fun a => !p a)).length = l.length := by
  induction l with
  | nil => rfl
  | cons a l ih =>
    by_cases h : p a <;> simp [List.filter_cons, h, ← ih] <;> omega

/-- Splitting a list by a predicate preserves every element's multiplicity. -/
theorem count_filter_split {α : Type} [DecidableEq α] (p : α → Bool) (l : List α)
    (x : α) :
    (l.filter p).count x + (l.filter (fun a => !p a)).count x = l.count x := by
  induction l with
  | nil => rfl
  | cons a l ih =>
    by_cases h : p a <;>
      simp [List.filter_cons, h, List.count_cons, ← ih] <;> omega

/-- Claim C4 counterexample: the claim "a candidate is in the matched output iff
`normalize(candidate.rawHandle)` is a key of the index" fails for an index
that stores an *empty* profile dict: Python's truthiness test
`if apify_profile:` sends the candidate to the unmatched output even though
its normalized handle is a key of the index. -/
theorem partition_key_membership_counterexample :
    normalize_linkedin_handle "foo" = "/in/foo" ∧
    "/in/foo" ∈ ([("/in/foo", ([] : ApifyProfile))].map Prod.fst) ∧
    partition_guests_by_profile_availability
        [GuestRecord.g4 "1" "Alice" "foo" (some 0)] [("/in/foo", [])] =
      ([], [GuestRecord.g4 "1" "Alice" "foo" (some 0)]) := by decide

/-- Claim C4 amended: the partition is total and exhaustive — the two output lengths
sum to the input length and every candidate keeps its exact multiplicity
across the two outputs — and, for any index all of whose stored results are
non-empty (as every index built by the Matcher is), a candidate is matched iff
`normalize(candidate.rawHandle)` is a key of the index, and unmatched
otherwise. -/
theorem partition_total_exhaustive (gs : List GuestRecord)
    (lookup : List (String × ApifyProfile)) :
    ((partition_guests_by_profile_availability gs lookup).1.length +
        (partition_guests_by_profile_availability gs lookup).2.length
      = gs.length) ∧
    (∀ g0 : GuestRecord,
      ((partition_guests_by_profile_availability gs lookup).1.map Prod.snd).count g0
          + (partition_guests_by_profile_availability gs lookup).2.count g0
        = gs.count g0) ∧
    ((∀ kv ∈ lookup, kv.2 ≠ ([] : ApifyProfile)) →
      ∀ g : GuestRecord,
        ((∃ pr ∈ (partition_guests_by_profile_availability gs lookup).1, pr.2 = g)
            ↔ g ∈ gs ∧ normalize_linkedin_handle g.handle ∈ lookup.map Prod.fst) ∧
        (g ∈ (partition_guests_by_profile_availability gs lookup).2
            ↔ g ∈ gs ∧ normalize_linkedin_handle g.handle ∉ lookup.map Prod.fst)) := by
  rw [partition_eq_filter]
  refine ⟨?_, ?_, ?_⟩
  · rw [List.length_map]
    exact length_filter_split _ _
  · intro g0
    have hmap : (List.map Prod.snd
        ((gs.filter (guestMatches lookup)).map (fun g => (matchedProfile lookup g, g))))
        = gs.filter (guestMatches lookup) := by
      rw [List.map_map]
      exact List.map_id _
    rw [hmap]
    exact count_filter_split _ _ _
  · intro hv g
    have hGM : guestMatches lookup g = true ↔
        normalize_linkedin_handle g.handle ∈ lookup.map Prod.fst := by
      rw [mem_keys_iff_dictGet]
      constructor
      · intro h
        unfold guestMatches match_guest_to_apify_profile at h
        cases hm : dictGet? (normalize_linkedin_handle g.handle) lookup with
        | none => rw [hm] at h; simp at h
        | some p => exact ⟨p, rfl⟩
      · rintro ⟨v, hm⟩
        have hne : v ≠ [] := hv _ (dictGet?_mem hm)
        unfold guestMatches match_guest_to_apify_profile
        rw [hm]
        simpa [List.isEmpty_iff] using hne
    constructor
    · constructor
      · rintro ⟨pr, hpr, hsnd⟩
        obtain ⟨a, ha, rfl⟩ := List.mem_map.mp hpr
        obtain ⟨hg, hm⟩ := List.mem_filter.mp ha
        have hag : a = g := hsnd
        subst hag
        exact ⟨hg, hGM.mp hm⟩
      · rintro ⟨hg, hk⟩
        exact ⟨(matchedProfile lookup g, g),
          List.mem_map_of_mem _ (List.mem_filter.mpr ⟨hg, hGM.mpr hk⟩), rfl⟩
    · constructor
      · intro hgf
        obtain ⟨hg, hm⟩ := List.mem_filter.mp hgf
        refine ⟨hg, fun hk => ?_⟩
        rw [hGM.mpr hk] at hm
        simp at hm
      · rintro ⟨hg, hk⟩
        refine List.mem_filter.mpr ⟨hg, ?_⟩
        cases hgm : guestMatches lookup g with
        | false => rfl
        | true => exact absurd (hGM.mp hgm) hk

/-- Witness for C4 at a concrete batch and Matcher-built-style index: the
candidate whose normalized handle is a key lands in the matched output. -/
theorem partition_total_exhaustive_witness :
    ∃ pr ∈ (partition_guests_by_profile_availability
        [GuestRecord.g4 "1" "Alice" "Alice" (some 1)]
        [("/in/alice", [("publicIdentifier", PyVal.str "alice")])]).1,
      pr.2 = GuestRecord.g4 "1" "Alice" "Alice" (some 1) :=
  (((partition_total_exhaustive
        [GuestRecord.g4 "1" "Alice" "Alice" (some 1)]
        [("/in/alice", [("publicIdentifier", PyVal.str "alice")])]).2.2
      (by decide) (GuestRecord.g4 "1" "Alice" "Alice" (some 1))).1).mpr (by decide)

/-- Profiles with a falsy `publicIdentifier` do not affect the lookup fold. -/
theorem foldl_lookup_filter (profiles : List ApifyProfile) :
    ∀ acc, profiles.foldl lookupInsertStep acc =
      (profiles.filter
        (fun p => (pyGetD p "publicIdentifier" (.str "")).isTruthy)).foldl
        lookupInsertStep acc := by
  induction profiles with
  | nil => intro _; rfl
  | cons p ps ih =>
    intro acc
    rw [List.foldl_cons, ih, List.filter_cons]
    by_cases h : (pyGetD p "publicIdentifier" (.str "")).isTruthy = true
    · simp only [h, if_true, List.foldl_cons]
    · have hstep : lookupInsertStep acc p = acc := by
        simp only [lookupInsertStep]
        rw [if_neg h]
      simp only [h, Bool.false_eq_true, if_false, hstep]

/-- Every entry of the lookup fold comes from a profile whose
`publicIdentifier` is truthy, keyed by its normalized value. -/
theorem foldl_lookup_mem (kv : String × ApifyProfile) :
    ∀ (profiles : List ApifyProfile) (acc : List (String × ApifyProfile)),
      kv ∈ profiles.foldl lookupInsertStep acc →
      kv ∈ acc ∨ ∃ p ∈ profiles,
        (pyGetD p "publicIdentifier" (.str "")).isTruthy = true ∧
        kv = (normalize_linkedin_handle
          (pyGetD p "publicIdentifier" (.str "")).asStr, p) := by
  intro profiles
  induction profiles with
  | nil => intro _ h; exact Or.inl h
  | cons p ps ih =>
    intro acc h
    rw [List.foldl_cons] at h
    rcases ih _ h with h1 | ⟨q, hq, ht, hkv⟩
    · simp only [lookupInsertStep] at h1
      by_cases hp : (pyGetD p "publicIdentifier" (.str "")).isTruthy = true
      · rw [if_pos hp] at h1
        rcases dictInsert_mem h1 with h2 | h2
        · exact Or.inr ⟨p, List.mem_cons_self _ _, hp, h2⟩
        · exact Or.inl h2
      · rw [if_neg hp] at h1
        exact Or.inl h1
    · exact Or.inr ⟨q, List.mem_cons_of_mem _ hq, ht, hkv⟩

/-- Claim C10: results whose public identifier is absent or empty (more generally,
falsy) are silently excluded from the Matcher's index: dropping them does not
change the index at all, every index entry is keyed by the normalization of a
non-empty public identifier string of some input profile, and when every
profile lacks a truthy public identifier the index is empty, so every
candidate is partitioned as unmatched. -/
theorem lookup_index_excludes_blank_ids (profiles : List ApifyProfile)
    (hty : ∀ p ∈ profiles,
      (pyGetD p "publicIdentifier" (.str "")).isTruthy = true →
      ∃ s, pyGetD p "publicIdentifier" (.str "") = .str s) :
    create_lookup_from_apify_profiles profiles =
      create_lookup_from_apify_profiles (profiles.filter
        (fun p => (pyGetD p "publicIdentifier" (.str "")).isTruthy)) ∧
    (∀ kv ∈ create_lookup_from_apify_profiles profiles, ∃ p ∈ profiles,
      ∃ s : String,
        pyGetD p "publicIdentifier" (.str "") = .str s ∧ s ≠ "" ∧
        kv.1 = normalize_linkedin_handle s ∧ kv.2 = p) ∧
    ((∀ p ∈ profiles, (pyGetD p "publicIdentifier" (.str "")).isTruthy = false) →
      create_lookup_from_apify_profiles profiles = [] ∧
      ∀ gs : List GuestRecord,
        partition_guests_by_profile_availability gs
          (create_lookup_from_apify_profiles profiles) = ([], gs)) := by
  refine ⟨foldl_lookup_filter profiles [], ?_, ?_⟩
  · intro kv hkv
    rcases foldl_lookup_mem kv profiles [] hkv with h | ⟨p, hp, ht, hkv2⟩
    · exact absurd h (List.not_mem_nil _)
    · obtain ⟨s, hs⟩ := hty p hp ht
      refine ⟨p, hp, s, hs, ?_, ?_, ?_⟩
      · intro hes
        subst hes
        rw [hs] at ht
        simp [PyVal.isTruthy] at ht
      · rw [hkv2, hs]
        rfl
      · rw [hkv2]
  · intro hall
    have hempty : create_lookup_from_apify_profiles profiles = [] := by
      have h1 := foldl_lookup_filter profiles []
      have h2 : profiles.filter
          (fun p => (pyGetD p "publicIdentifier" (.str "")).isTruthy) = [] := by
        rw [List.filter_eq_nil_iff]
        intro p hp
        rw [hall p hp]
        exact Bool.false_ne_true
      rw [create_lookup_from_apify_profiles, h1, h2]
      rfl
    refine ⟨hempty, fun gs => ?_⟩
    rw [hempty, partition_eq_filter]
    have hnone : ∀ g : GuestRecord, guestMatches [] g = false := fun _ => rfl
    have hf1 : gs.filter (guestMatches []) = [] := by
      rw [List.filter_eq_nil_iff]
      intro g _
      rw [hnone g]
      exact Bool.false_ne_true
    have hf2 : gs.filter (fun g => !guestMatches [] g) = gs := by
      rw [List.filter_eq_self]
      intro g _
      rw [hnone g]
      rfl
    rw [hf1, hf2]
    rfl

/-- Witness for C10 at a one-profile input: the single index entry is keyed by
the normalized non-empty public identifier. -/
theorem lookup_index_excludes_blank_ids_witness :
    ∃ p ∈ [[("publicIdentifier", PyVal.str "Alice")]], ∃ s : String,
      pyGetD p "publicIdentifier" (PyVal.str "") = PyVal.str s ∧ s ≠ "" ∧
      ("/in/alice", [("publicIdentifier", PyVal.str "Alice")]).1
        = normalize_linkedin_handle s ∧
      ("/in/alice", [("publicIdentifier", PyVal.str "Alice")]).2 = p :=
  (lookup_index_excludes_blank_ids [[("publicIdentifier", PyVal.str "Alice")]]
      (by
        intro p hp _
        fin_cases hp
        exact ⟨"Alice", rfl⟩)).2.1
    ("/in/alice", [("publicIdentifier", PyVal.str "Alice")]) (by decide)

/-- With an empty lookup index every guest is unmatched. -/
theorem partition_nil_lookup (gs : List GuestRecord) :
    partition_guests_by_profile_availability gs [] = ([], gs) := by
  rw [partition_eq_filter]
  have hnone : ∀ g : GuestRecord, guestMatches [] g = false := fun _ => rfl
  have hf1 : gs.filter (guestMatches []) = [] := by
    rw [List.filter_eq_nil_iff]
    intro g _
    rw [hnone g]
    exact Bool.false_ne_true
  have hf2 : gs.filter (fun g => !guestMatches [] g) = gs := by
    rw [List.filter_eq_self]
    intro g _
    rw [hnone g]
    rfl
  rw [hf1, hf2]
  rfl

/-- The two partition outputs always account for the whole batch. -/
theorem partition_length_sum (gs : List GuestRecord)
    (lookup : List (String × ApifyProfile)) :
    (partition_guests_by_profile_availability gs lookup).1.length +
      (partition_guests_by_profile_availability gs lookup).2.length = gs.length := by
  rw [partition_eq_filter]
  show ((gs.filter (guestMatches lookup)).map _).length + _ = _
  rw [List.length_map]
  exact length_filter_split _ _

/-- Evaluation of one non-empty run of `enrich_linkedin_profiles`: the counts
are the partition sizes, the failure flag and writes mirror the upsert
outcome, and the single batch write happens exactly when the connection
opens. -/
theorem enrich_some_eval (pending : List GuestRecord)
    (profiles : List ApifyProfile) (connOk upOk : Bool) (now : Nat)
    (hp : pending ≠ []) :
    enrich_linkedin_profiles ⟨some pending, profiles, connOk, upOk⟩ now =
      ⟨pending.length,
        (partition_guests_by_profile_availability pending
          (create_lookup_from_apify_profiles profiles)).1.length,
        (partition_guests_by_profile_availability pending
          (create_lookup_from_apify_profiles profiles)).2.length,
        !(if connOk then upOk else false),
        if connOk then
          [(partition_guests_by_profile_availability pending
              (create_lookup_from_apify_profiles profiles)).1.map
            (fun pg => build_enriched_profile_record pg.1 pg.2) ++
           (partition_guests_by_profile_availability pending
              (create_lookup_from_apify_profiles profiles)).2.map
            (fun g => build_missing_profile_record g now 0)]
        else []⟩ := by
  obtain ⟨a, rest, rfl⟩ : ∃ a rest, pending = a :: rest := by
    cases pending with
    | nil => exact absurd rfl hp
    | cons a rest => exact ⟨a, rest, rfl⟩
  have hne : ((partition_guests_by_profile_availability (a :: rest)
        (create_lookup_from_apify_profiles profiles)).1.map
      (fun pg => build_enriched_profile_record pg.1 pg.2) ++
      (partition_guests_by_profile_availability (a :: rest)
        (create_lookup_from_apify_profiles profiles)).2.map
      (fun g => build_missing_profile_record g now 0)).isEmpty = false := by
    have hlen : ((partition_guests_by_profile_availability (a :: rest)
          (create_lookup_from_apify_profiles profiles)).1.map
        (fun pg => build_enriched_profile_record pg.1 pg.2) ++
        (partition_guests_by_profile_availability (a :: rest)
          (create_lookup_from_apify_profiles profiles)).2.map
        (fun g => build_missing_profile_record g now 0)).length = (a :: rest).length := by
      rw [List.length_append, List.length_map, List.length_map]
      exact partition_length_sum _ _
    cases hcase : ((partition_guests_by_profile_availability (a :: rest)
          (create_lookup_from_apify_profiles profiles)).1.map
        (fun pg => build_enriched_profile_record pg.1 pg.2) ++
        (partition_guests_by_profile_availability (a :: rest)
          (create_lookup_from_apify_profiles profiles)).2.map
        (fun g => build_missing_profile_record g now 0)) with
    | nil => rw [hcase] at hlen; simp at hlen
    | cons x xs => rfl
  simp only [enrich_linkedin_profiles, upsert_linkedin_profiles, hne,
    Bool.false_eq_true, if_false, List.length_map]
  cases connOk <;> simp

example :
    enrich_linkedin_profiles ⟨some [GuestRecord.g3 "1" "n" "x"], [], true, false⟩ 5 =
      ⟨1, 0, 1, true, [[build_missing_profile_record (GuestRecord.g3 "1" "n" "x") 5 0]]⟩ := by
  decide

/-- Claim C6: when the lookup gateway fails (any exception from the actor call,
including transport/auth errors), it returns an empty sequence rather than
raising, and the core treats the empty sequence as all candidates unresolved
for the round: the batch is not aborted (no failure is reported), nothing is
resolved, and every selected candidate receives a failure record with
`retry_count` incremented and the backoff deadline advanced. -/
theorem gateway_failure_degrades_to_all_unresolved (tok msg : String)
    (pending : List GuestRecord) (now : Nat) (hp : pending ≠ []) :
    get_linkedin_profiles (some tok) (.apiError msg) = .ok [] ∧
    (enrich_linkedin_profiles ⟨some pending, [], true, true⟩ now).failed = false ∧
    (enrich_linkedin_profiles ⟨some pending, [], true, true⟩ now).resolved = 0 ∧
    (enrich_linkedin_profiles ⟨some pending, [], true, true⟩ now).unresolved
      = pending.length ∧
    (enrich_linkedin_profiles ⟨some pending, [], true, true⟩ now).writes =
      [pending.map (fun g => build_missing_profile_record g now 0)] ∧
    ∀ g ∈ pending,
      (build_missing_profile_record g now 0)[29]? =
        some (.int (g.effectiveRetry 0 + 1)) ∧
      (build_missing_profile_record g now 0)[31]? =
        some (.int (now + backoffMs (g.effectiveRetry 0 + 1))) := by
  have heval := enrich_some_eval pending [] true true now hp
  have hlookup : create_lookup_from_apify_profiles [] = [] := rfl
  rw [hlookup, partition_nil_lookup] at heval
  rw [heval]
  exact ⟨rfl, rfl, rfl, rfl, rfl, fun g _ => ⟨rfl, rfl⟩⟩

/-- Witness for C6 at a concrete one-candidate batch. -/
theorem gateway_failure_degrades_witness :
    get_linkedin_profiles (some "token") (.apiError "connection reset") = .ok [] ∧
    (enrich_linkedin_profiles
        ⟨some [GuestRecord.g4 "1" "n" "alice" (some 0)], [], true, true⟩ 1000).failed
      = false ∧
    (enrich_linkedin_profiles
        ⟨some [GuestRecord.g4 "1" "n" "alice" (some 0)], [], true, true⟩ 1000).resolved
      = 0 ∧
    (enrich_linkedin_profiles
        ⟨some [GuestRecord.g4 "1" "n" "alice" (some 0)], [], true, true⟩ 1000).unresolved
      = [GuestRecord.g4 "1" "n" "alice" (some 0)].length ∧
    (enrich_linkedin_profiles
        ⟨some [GuestRecord.g4 "1" "n" "alice" (some 0)], [], true, true⟩ 1000).writes =
      [[GuestRecord.g4 "1" "n" "alice" (some 0)].map
        (fun g => build_missing_profile_record g 1000 0)] ∧
    ∀ g ∈ [GuestRecord.g4 "1" "n" "alice" (some 0)],
      (build_missing_profile_record g 1000 0)[29]? =
        some (.int (g.effectiveRetry 0 + 1)) ∧
      (build_missing_profile_record g 1000 0)[31]? =
        some (.int (1000 + backoffMs (g.effectiveRetry 0 + 1))) :=
  gateway_failure_degrades_to_all_unresolved "token" "connection reset"
    [GuestRecord.g4 "1" "n" "alice" (some 0)] 1000 (by decide)

/-- Claim C8 counterexample: a fatal persistence failure at the *selection* stage
(the database connection cannot be opened, `fetch_guests_pending_for_enrichment`
returns `None`) is reported exactly like an empty successful run — `failed`
is `false` and the printed summary is "No guests need LinkedIn enrichment" —
not as a failed summary, contradicting the claim that fatal persistence
failure is reported as failure to the caller. -/
theorem selection_failure_reported_as_success :
    enrich_linkedin_profiles ⟨none, [], true, true⟩ 0 =
      ⟨0, 0, 0, false, []⟩ := rfl

/-- Claim C8 amended: for every run with a non-empty selection, the reported summary
satisfies `attempted = |pending|` and `attempted = resolved + unresolved`;
when the upsert succeeds no failure is reported; on upsert-stage persistence
failure (statement error or unopenable connection) the run reports failure and
attempts no write beyond the single already-submitted batch (none at all when
the connection fails); but a selection-stage persistence failure is reported
as an empty successful run, not as a failure. -/
theorem run_summary_and_failure_reporting (pending : List GuestRecord)
    (profiles : List ApifyProfile) (now : Nat) (upOk : Bool)
    (hp : pending ≠ []) :
    ((enrich_linkedin_profiles ⟨some pending, profiles, true, upOk⟩ now).attempted
        = pending.length ∧
      (enrich_linkedin_profiles ⟨some pending, profiles, true, upOk⟩ now).attempted
        = (enrich_linkedin_profiles ⟨some pending, profiles, true, upOk⟩ now).resolved
          + (enrich_linkedin_profiles ⟨some pending, profiles, true, upOk⟩ now).unresolved ∧
      (enrich_linkedin_profiles ⟨some pending, profiles, true, upOk⟩ now).failed
        = !upOk ∧
      (enrich_linkedin_profiles ⟨some pending, profiles, true, upOk⟩ now).writes.length
        = 1) ∧
    ((enrich_linkedin_profiles ⟨some pending, profiles, false, upOk⟩ now).failed
        = true ∧
      (enrich_linkedin_profiles ⟨some pending, profiles, false, upOk⟩ now).writes
        = []) ∧
    enrich_linkedin_profiles ⟨none, profiles, true, upOk⟩ now = ⟨0, 0, 0, false, []⟩ := by
  have h1 := enrich_some_eval pending profiles true upOk now hp
  have h2 := enrich_some_eval pending profiles false upOk now hp
  rw [h1, h2]
  refine ⟨⟨rfl, ?_, by simp, rfl⟩, ⟨rfl, rfl⟩, rfl⟩
  exact (partition_length_sum pending (create_lookup_from_apify_profiles profiles)).symm

/-- Witness for C8 amended at a concrete one-candidate run with a failing
upsert statement. -/
theorem run_summary_and_failure_reporting_witness :
    (enrich_linkedin_profiles
        ⟨some [GuestRecord.g3 "1" "n" "x"], [], true, false⟩ 5).failed = !false ∧
    (enrich_linkedin_profiles
        ⟨some [GuestRecord.g3 "1" "n" "x"], [], true, false⟩ 5).writes.length = 1 :=
  ⟨(run_summary_and_failure_reporting [GuestRecord.g3 "1" "n" "x"] [] 5 false
      (by decide)).1.2.2.1,
   (run_summary_and_failure_reporting [GuestRecord.g3 "1" "n" "x"] [] 5 false
      (by decide)).1.2.2.2⟩

/-!  ## Sorting lemmas for the selector  -/

/-- Membership in an insertion: the inserted element or an old one. -/
theorem mem_insertSorted {α : Type} (le : α → α → Bool) (a x : α) :
    ∀ (l : List α), x ∈ insertSorted le a l ↔ x = a ∨ x ∈ l := by
  intro l
  induction l with
  | nil => simp [insertSorted]
  | cons b bs ih =>
    rw [insertSorted]
    by_cases h : le a b = true
    · rw [if_pos h]
      simp [List.mem_cons]
    · rw [if_neg h]
      simp only [List.mem_cons, ih]
      tauto

/-- Sorting preserves membership. -/
theorem mem_sortByKey {α : Type} (le : α → α → Bool) (x : α) :
    ∀ (l : List α), x ∈ sortByKey le l ↔ x ∈ l := by
  intro l
  induction l with
  | nil => simp [sortByKey]
  | cons a as ih =>
    rw [sortByKey, mem_insertSorted]
    simp [ih]

/-- Inserting into a sorted list keeps it sorted, for a total transitive
Boolean order. -/
theorem pairwise_insertSorted {α : Type} (le : α → α → Bool)
    (htot : ∀ x y, le x y = true ∨ le y x = true)
    (htrans : ∀ x y z, le x y = true → le y z = true → le x z = true)
    (a : α) :
    ∀ {l : List α}, l.Pairwise (fun x y => le x y = true) →
      (insertSorted le a l).Pairwise (fun x y => le x y = true) := by
  intro l
  induction l with
  | nil => intro _; simp [insertSorted]
  | cons b bs ih =>
    intro hl
    obtain ⟨hb, hbs⟩ := List.pairwise_cons.mp hl
    rw [insertSorted]
    by_cases h : le a b = true
    · rw [if_pos h]
      refine List.pairwise_cons.mpr ⟨?_, hl⟩
      intro x hx
      rcases List.mem_cons.mp hx with hxb | hx2
      · rw [hxb]
        exact h
      · exact htrans a b x h (hb x hx2)
    · rw [if_neg h]
      refine List.pairwise_cons.mpr ⟨?_, ih hbs⟩
      intro x hx
      rcases (mem_insertSorted le a x bs).mp hx with hxa | hx2
      · rw [hxa]
        rcases htot a b with h1 | h1
        · exact absurd h1 h
        · exact h1
      · exact hb x hx2

/-- Insertion sort sorts, for a total transitive Boolean order. -/
theorem pairwise_sortByKey {α : Type} (le : α → α → Bool)
    (htot : ∀ x y, le x y = true ∨ le y x = true)
    (htrans : ∀ x y z, le x y = true → le y z = true → le x z = true) :
    ∀ (l : List α), (sortByKey le l).Pairwise (fun x y => le x y = true) := by
  intro l
  induction l with
  | nil => simp [sortByKey]
  | cons a as ih =>
    rw [sortByKey]
    exact pairwise_insertSorted le htot htrans a ih

/-- The nulls-first order on nullable timestamps is total. -/
theorem optNatLe_total (x y : Option Nat) :
    optNatLe x y = true ∨ optNatLe y x = true := by
  cases x <;> cases y <;> simp [optNatLe] <;> omega

/-- The nulls-first order on nullable timestamps is transitive. -/
theorem optNatLe_trans (x y z : Option Nat) (h1 : optNatLe x y = true)
    (h2 : optNatLe y z = true) : optNatLe x z = true := by
  cases x <;> cases y <;> cases z <;> simp [optNatLe] at * <;> omega

/-- The selector's ORDER BY comparison is total. -/
theorem rowLe_total (a b : JoinedRow) : rowLe a b = true ∨ rowLe b a = true := by
  unfold rowLe
  rcases Nat.lt_trichotomy (retryKey a) (retryKey b) with h | h | h
  · left
    simp [h]
  · rcases optNatLe_total (lastKey a) (lastKey b) with h2 | h2
    · left
      simp [h, h2]
    · right
      simp [h, h2]
  · right
    simp [h]

/-- The selector's ORDER BY comparison is transitive. -/
theorem rowLe_trans (a b c : JoinedRow) (h1 : rowLe a b = true)
    (h2 : rowLe b c = true) : rowLe a c = true := by
  unfold rowLe at *
  simp only [Bool.or_eq_true, Bool.and_eq_true, decide_eq_true_eq,
    beq_iff_eq] at *
  rcases h1 with h1 | ⟨h1e, h1o⟩ <;> rcases h2 with h2 | ⟨h2e, h2o⟩
  · exact Or.inl (Nat.lt_trans h1 h2)
  · exact Or.inl (h2e ▸ h1)
  · exact Or.inl (h1e ▸ h2)
  · exact Or.inr ⟨h1e.trans h2e, optNatLe_trans _ _ _ h1o h2o⟩

/-- What the WHERE clause guarantees about a joined row with a profile row. -/
theorem eligiblePred_some_facts {now : Nat} {g : Guest} {lp : ProfileRow}
    (h : eligiblePred now (g, some lp) = true) :
    g.linkedin_handle.isSome = true ∧ lp.profile_found = false ∧
    ∃ n, lp.retry_count = some n ∧ n < 3 ∧
      (∀ t, lp.next_retry_after = some t → t < now) := by
  simp only [eligiblePred, Bool.and_eq_true] at h
  obtain ⟨hh, hm⟩ := h
  obtain ⟨⟨hf, hr⟩, hn⟩ := hm
  refine ⟨hh, eq_of_beq hf, ?_⟩
  cases hrc : lp.retry_count with
  | none => rw [hrc] at hr; exact Bool.noConfusion hr
  | some n =>
    rw [hrc] at hr
    refine ⟨n, rfl, of_decide_eq_true hr, fun t ht => ?_⟩
    rw [ht] at hn
    exact of_decide_eq_true hn

/-- Claim C1: the selector returns at most `limit` candidates; the underlying row
sequence is ordered ascending by `COALESCE(retry_count, 0)` then ascending by
`last_attempt_at` with nulls first, and the output is exactly the projection
of its `limit`-prefix; every returned candidate has a non-null raw handle and
comes from a joined row satisfying the WHERE clause — no row, or a row with
`found = false`, `retry_count < 3` and `next_eligible_at` null or earlier
than `now` — and its selected retry count is below 3; in particular a row
with `retry_count ≥ 3` is never eligible, regardless of `next_eligible_at`. -/
theorem fetch_pending_selector_correct (db : DBState) (now limit : Nat) :
    (fetch_guests_pending_for_enrichment db now limit).length ≤ limit ∧
    (sortByKey rowLe (eligibleRows db now)).Pairwise
      (fun a b => rowLe a b = true) ∧
    fetch_guests_pending_for_enrichment db now limit =
      ((sortByKey rowLe (eligibleRows db now)).take limit).map selectRow ∧
    (∀ c ∈ fetch_guests_pending_for_enrichment db now limit,
      ∃ r ∈ leftJoinProfiles db,
        eligiblePred now r = true ∧ c = selectRow r ∧
        c.linkedin_handle ≠ none ∧ c.retry_count < 3 ∧
        (∀ lp, r.2 = some lp →
          lp.profile_found = false ∧
          ∃ n, lp.retry_count = some n ∧ n < 3 ∧
            (∀ t, lp.next_retry_after = some t → t < now))) ∧
    (∀ g lp, (g, some lp) ∈ eligibleRows db now →
      ∃ n, lp.retry_count = some n ∧ n < 3) := by
  refine ⟨?_, pairwise_sortByKey rowLe rowLe_total rowLe_trans _, rfl, ?_, ?_⟩
  · rw [fetch_guests_pending_for_enrichment, List.length_map]
    exact List.length_take_le _ _
  · intro c hc
    obtain ⟨r, hr, rfl⟩ := List.mem_map.mp hc
    have hr2 : r ∈ sortByKey rowLe (eligibleRows db now) :=
      List.take_subset _ _ hr
    have hr3 : r ∈ eligibleRows db now := (mem_sortByKey rowLe r _).mp hr2
    obtain ⟨hjoin, hpred⟩ := List.mem_filter.mp hr3
    obtain ⟨g, lp?⟩ := r
    refine ⟨(g, lp?), hjoin, hpred, rfl, ?_, ?_, ?_⟩
    · have hh : g.linkedin_handle.isSome = true := by
        simp only [eligiblePred, Bool.and_eq_true] at hpred
        exact hpred.1
      have : (selectRow (g, lp?)).linkedin_handle = g.linkedin_handle := rfl
      rw [this]
      exact Option.isSome_iff_ne_none.mp hh
    · cases lp? with
      | none =>
        show retryKey (g, none) < 3
        simp [retryKey]
      | some lp =>
        obtain ⟨-, -, n, hn, hn3, -⟩ := eligiblePred_some_facts hpred
        show retryKey (g, some lp) < 3
        simpa [retryKey, hn] using hn3
    · intro lp hlp
      have hlp2 : lp? = some lp := hlp
      subst hlp2
      obtain ⟨-, hf, n, hn, hn3, hnext⟩ := eligiblePred_some_facts hpred
      exact ⟨hf, n, hn, hn3, hnext⟩
  · intro g lp hmem
    obtain ⟨-, hpred⟩ := List.mem_filter.mp hmem
    obtain ⟨-, -, n, hn, hn3, -⟩ := eligiblePred_some_facts hpred
    exact ⟨n, hn, hn3⟩

/-- Witness for C1 at a concrete database with one never-enriched guest. -/
theorem fetch_pending_selector_correct_witness :
    ∃ r ∈ leftJoinProfiles ⟨[⟨"g1", "Alice", some "alice"⟩], []⟩,
      eligiblePred 100 r = true ∧
      Candidate.mk "g1" "Alice" (some "alice") 0 = selectRow r ∧
      (Candidate.mk "g1" "Alice" (some "alice") 0).linkedin_handle ≠ none ∧
      (Candidate.mk "g1" "Alice" (some "alice") 0).retry_count < 3 ∧
      (∀ lp, r.2 = some lp →
        lp.profile_found = false ∧
        ∃ n, lp.retry_count = some n ∧ n < 3 ∧
          (∀ t, lp.next_retry_after = some t → t < 100)) :=
  (fetch_pending_selector_correct ⟨[⟨"g1", "Alice", some "alice"⟩], []⟩
      100 5).2.2.2.1
    (Candidate.mk "g1" "Alice" (some "alice") 0) (by decide)

/-- Claim C5 counterexample: the normalizer is not idempotent on all valid inputs,
and does not map all case variants of the same handle to one canonical value:
the host-prefix replacements are case-sensitive, so an upper-case profile URL
keeps its host inside the handle, and a second normalization pass then strips
it, giving a different string; the degenerate input `"/"` also breaks
idempotence via the empty stripped handle. -/
theorem normalize_not_idempotent_counterexample :
    normalize_linkedin_handle "HTTPS://WWW.LINKEDIN.COM/IN/FOO" =
      "/in/https://www.linkedin.com/in/foo" ∧
    normalize_linkedin_handle "/in/https://www.linkedin.com/in/foo" =
      "/in//in/foo" ∧
    normalize_linkedin_handle
        (normalize_linkedin_handle "HTTPS://WWW.LINKEDIN.COM/IN/FOO") ≠
      normalize_linkedin_handle "HTTPS://WWW.LINKEDIN.COM/IN/FOO" ∧
    normalize_linkedin_handle "https://www.linkedin.com/in/foo" = "/in/foo" ∧
    normalize_linkedin_handle "HTTPS://WWW.LINKEDIN.COM/IN/FOO" ≠
      normalize_linkedin_handle "https://www.linkedin.com/in/foo" ∧
    normalize_linkedin_handle "/" = "/in/" ∧
    normalize_linkedin_handle (normalize_linkedin_handle "/") ≠
      normalize_linkedin_handle "/" := by decide

/-- If the pattern does not occur in the list, removal is the identity. -/
theorem removeAllAux_id {pat : List Char} :
    ∀ (fuel : Nat) (s : List Char), hasSubstr pat s = false →
      removeAllAux pat fuel s = s := by
  intro fuel
  induction fuel with
  | zero =>
    intro s _
    cases s with
    | nil => rfl
    | cons c r => rfl
  | succ f ih =>
    intro s h
    cases s with
    | nil => rfl
    | cons c rest =>
      rw [hasSubstr] at h
      obtain ⟨hpre, hrest⟩ := Bool.or_eq_false_iff.mp h
      simp only [removeAllAux, hpre, Bool.false_eq_true, if_false]
      rw [ih rest hrest]

/-- If the pattern does not occur in the string, `str.replace(pat, '')` is the
identity. -/
theorem pyReplaceEmpty_id {pat s : List Char} (h : hasSubstr pat s = false) :
    pyReplaceEmpty s pat = s :=
  removeAllAux_id s.length s h

/-- Applying `Char.ofNat` at a valid code point round-trips through `toNat`. -/
theorem char_ofNat_toNat_valid (n : Nat) (h : n.isValidChar) :
    (Char.ofNat n).toNat = n := by
  unfold Char.ofNat
  rw [dif_pos h]
  rfl

/-- Lower-casing fixes every non-upper-case character. -/
theorem toLower_eq_self_of_not_upper (d : Char)
    (h : ¬(d.toNat ≥ 65 ∧ d.toNat ≤ 90)) : d.toLower = d := by
  show (if d.toNat ≥ 65 ∧ d.toNat ≤ 90 then Char.ofNat (d.toNat + 32) else d) = d
  rw [if_neg h]

/-- Lower-casing shifts an upper-case character by 32. -/
theorem toLower_eq_ofNat_of_upper (d : Char)
    (h : d.toNat ≥ 65 ∧ d.toNat ≤ 90) : d.toLower = Char.ofNat (d.toNat + 32) := by
  show (if d.toNat ≥ 65 ∧ d.toNat ≤ 90 then Char.ofNat (d.toNat + 32) else d) = _
  rw [if_pos h]

/-- Lower-casing a character is idempotent. -/
theorem toLower_toLower (c : Char) : c.toLower.toLower = c.toLower := by
  by_cases h : c.toNat ≥ 65 ∧ c.toNat ≤ 90
  · have ht : (c.toLower).toNat = c.toNat + 32 := by
      rw [toLower_eq_ofNat_of_upper c h]
      exact char_ofNat_toNat_valid _ (Or.inl (by omega))
    apply toLower_eq_self_of_not_upper
    rw [ht]
    omega
  · rw [toLower_eq_self_of_not_upper c h, toLower_eq_self_of_not_upper c h]

/-- Lower-casing never produces a slash from a non-slash. -/
theorem toLower_ne_slash {c : Char} (h : c ≠ '/') : c.toLower ≠ '/' := by
  by_cases hu : c.toNat ≥ 65 ∧ c.toNat ≤ 90
  · have ht : (c.toLower).toNat = c.toNat + 32 := by
      rw [toLower_eq_ofNat_of_upper c hu]
      exact char_ofNat_toNat_valid _ (Or.inl (by omega))
    intro he
    rw [he] at ht
    have h47 : ('/').toNat = 47 := rfl
    rw [h47] at ht
    omega
  · rw [toLower_eq_self_of_not_upper c hu]
    exact h

/-- Lower-casing a character list is idempotent. -/
theorem map_toLower_idem (l : List Char) :
    (l.map Char.toLower).map Char.toLower = l.map Char.toLower := by
  rw [List.map_map]
  exact List.map_congr_left (fun a _ => toLower_toLower a)

/-- The head surviving `dropWhile` falsifies the predicate. -/
theorem dropWhile_head_not (p : Char → Bool) :
    ∀ (l : List Char) (a : Char), (l.dropWhile p).head? = some a → p a = false := by
  intro l
  induction l with
  | nil => intro a h; exact Option.noConfusion h
  | cons x xs ih =>
    intro a h
    rw [List.dropWhile_cons] at h
    by_cases hp : p x = true
    · rw [if_pos hp] at h
      exact ih a h
    · rw [if_neg hp] at h
      rw [List.head?_cons] at h
      rw [← Option.some.inj h]
      exact Bool.eq_false_iff.mpr hp

/-- The last character surviving `dropTrailing` is not the stripped one. -/
theorem getLast?_dropTrailing {c : Char} {l : List Char} {a : Char}
    (h : (dropTrailing c l).getLast? = some a) : (a == c) = false := by
  unfold dropTrailing at h
  rw [List.getLast?_reverse] at h
  simpa using dropWhile_head_not _ _ a h

/-- The function `dropTrailing` is the identity when the last element is not stripped. -/
theorem dropTrailing_concat {c a : Char} (l : List Char) (h : (a == c) = false) :
    dropTrailing c (l ++ [a]) = l ++ [a] := by
  unfold dropTrailing
  simp [List.dropWhile_cons, h]

/-- The test `isPre` is exactly the list-prefix relation. -/
theorem isPre_iff_exists : ∀ (p s : List Char),
    isPre p s = true ↔ ∃ t, s = p ++ t := by
  intro p
  induction p with
  | nil =>
    intro s
    simp [isPre]
  | cons a ps ih =>
    intro s
    cases s with
    | nil =>
      simp only [isPre, Bool.false_eq_true, false_iff]
      rintro ⟨t, ht⟩
      exact List.noConfusion ht
    | cons b bs =>
      rw [isPre]
      constructor
      · intro h
        rw [Bool.and_eq_true] at h
        obtain ⟨hab, hps⟩ := h
        obtain ⟨t, rfl⟩ := (ih bs).mp hps
        exact ⟨t, by rw [eq_of_beq hab]; rfl⟩
      · rintro ⟨t, ht⟩
        injection ht with hba hbs
        rw [Bool.and_eq_true, hba]
        exact ⟨beq_self_eq_true a, (ih bs).mpr ⟨t, hbs⟩⟩

/-- Core idempotence of the normalizer: re-normalizing a canonical output that
contains no host-prefix substring and is not the degenerate `"/in/"` is the
identity. -/
theorem normChars_idem (x : List Char)
    (h1 : hasSubstr hostPat1 (normChars x) = false)
    (h2 : hasSubstr hostPat2 (normChars x) = false)
    (h3 : hasSubstr hostPat3 (normChars x) = false)
    (hdeg : normChars x ≠ ['/', 'i', 'n', '/']) :
    normChars (normChars x) = normChars x := by
  obtain ⟨S, hS⟩ : ∃ S, pyStrip '/' (pyReplaceEmpty (pyReplaceEmpty
      (pyReplaceEmpty x hostPat1) hostPat2) hostPat3) = S := ⟨_, rfl⟩
  have hnx : normChars x =
      ('/' :: (if isPre inSeg S then S else inSeg ++ S)).map Char.toLower := by
    rw [← hS]
    rfl
  have hlastS : ∀ a : Char, S.getLast? = some a → (a == '/') = false := by
    intro a ha
    rw [← hS] at ha
    unfold pyStrip at ha
    exact getLast?_dropTrailing ha
  rcases List.eq_nil_or_concat S with hSnil | ⟨T, a, hTa⟩
  · exfalso
    apply hdeg
    rw [hnx, hSnil]
    decide
  · have hTa' : S = T ++ [a] := by rw [hTa, List.concat_eq_append]
    have haS : (a == '/') = false := by
      apply hlastS a
      rw [hTa']
      exact List.getLast?_concat _
    have hane : a ≠ '/' := ne_of_beq_false haS
    obtain ⟨h5v, hh5⟩ : ∃ h5v, (if isPre inSeg S then S else inSeg ++ S) = h5v :=
      ⟨_, rfl⟩
    obtain ⟨U, hU⟩ : ∃ U, h5v = inSeg ++ U := by
      rw [← hh5]
      by_cases hip : isPre inSeg S = true
      · rw [if_pos hip]
        exact (isPre_iff_exists inSeg S).mp hip
      · rw [if_neg hip]
        exact ⟨S, rfl⟩
    obtain ⟨T', hT'⟩ : ∃ T', h5v = T' ++ [a] := by
      rw [← hh5]
      by_cases hip : isPre inSeg S = true
      · rw [if_pos hip]
        exact ⟨T, hTa'⟩
      · rw [if_neg hip]
        exact ⟨inSeg ++ T, by rw [hTa', List.append_assoc]⟩
    have hsl : Char.toLower '/' = '/' := by decide
    have hy : normChars x = '/' :: (h5v.map Char.toLower) := by
      rw [hnx, hh5, List.map_cons, hsl]
    have hseg0 : inSeg = ['i', 'n', '/'] := by decide
    have hL1 : h5v.map Char.toLower = 'i' :: 'n' :: '/' :: (U.map Char.toLower) := by
      rw [hU, List.map_append]
      have hseg : inSeg.map Char.toLower = ['i', 'n', '/'] := by decide
      rw [hseg]
      rfl
    have hL2 : h5v.map Char.toLower = (T'.map Char.toLower) ++ [a.toLower] := by
      rw [hT', List.map_append]
      rfl
    have hy1 : pyReplaceEmpty (normChars x) hostPat1 = normChars x :=
      pyReplaceEmpty_id h1
    have hy2 : pyReplaceEmpty (pyReplaceEmpty (normChars x) hostPat1) hostPat2
        = normChars x := by
      rw [hy1]
      exact pyReplaceEmpty_id h2
    have hy3 : pyReplaceEmpty (pyReplaceEmpty (pyReplaceEmpty (normChars x)
        hostPat1) hostPat2) hostPat3 = normChars x := by
      rw [hy2]
      exact pyReplaceEmpty_id h3
    have hdw : (normChars x).dropWhile (fun c => c == '/') = h5v.map Char.toLower := by
      rw [hy, List.dropWhile_cons]
      have e1 : (('/' : Char) == '/') = true := by decide
      simp only [e1, if_true]
      rw [hL1, List.dropWhile_cons]
      have e2 : (('i' : Char) == '/') = false := by decide
      simp [e2]
    have hstrip : pyStrip '/' (normChars x) = h5v.map Char.toLower := by
      unfold pyStrip
      rw [hdw, hL2]
      have e3 : (a.toLower == '/') = false := beq_false_of_ne (toLower_ne_slash hane)
      rw [dropTrailing_concat _ e3]
    have hS' : pyStrip '/' (pyReplaceEmpty (pyReplaceEmpty
        (pyReplaceEmpty (normChars x) hostPat1) hostPat2) hostPat3)
        = h5v.map Char.toLower := by
      rw [hy3, hstrip]
    have hcore : normChars (normChars x) =
        ('/' :: (if isPre inSeg (h5v.map Char.toLower) then h5v.map Char.toLower
          else inSeg ++ h5v.map Char.toLower)).map Char.toLower := by
      have hc := congrArg (fun S' => ('/' :: (if isPre inSeg S' then S'
        else inSeg ++ S')).map Char.toLower) hS'
      exact hc
    have hip' : isPre inSeg (h5v.map Char.toLower) = true := by
      rw [hL1]
      refine (isPre_iff_exists inSeg _).mpr ⟨U.map Char.toLower, ?_⟩
      rw [hseg0]
      rfl
    rw [hcore, if_pos hip', List.map_cons, hsl, map_toLower_idem, hy]

/-- Claim C5 amended: the documented examples do map to one canonical value
(`normalize("https://www.linkedin.com/in/Foo/") = normalize("foo") =
normalize("/in/foo") = "/in/foo"`), and the normalizer is idempotent on every
input whose canonical form contains none of the three (lower-case)
host-prefix substrings and is not the degenerate `"/in/"` — which covers
every ordinary handle and lower-case profile URL.  (Host-prefix removal is
case-sensitive, so upper-case scheme/host variants are neither stripped nor
stable under re-normalization, and inputs collapsing to `"/in/"` grow on
re-normalization; see the counterexample.) -/
theorem normalize_idempotent_conditional (x : String)
    (h1 : hasSubstr hostPat1 (normalize_linkedin_handle x).toList = false)
    (h2 : hasSubstr hostPat2 (normalize_linkedin_handle x).toList = false)
    (h3 : hasSubstr hostPat3 (normalize_linkedin_handle x).toList = false)
    (hdeg : normalize_linkedin_handle x ≠ "/in/") :
    normalize_linkedin_handle (normalize_linkedin_handle x) =
      normalize_linkedin_handle x ∧
    normalize_linkedin_handle "https://www.linkedin.com/in/Foo/" = "/in/foo" ∧
    normalize_linkedin_handle "foo" = "/in/foo" ∧
    normalize_linkedin_handle "/in/foo" = "/in/foo" := by
  refine ⟨?_, by decide, by decide, by decide⟩
  have hl : (normalize_linkedin_handle x).toList = normChars x.toList := rfl
  rw [hl] at h1 h2 h3
  have hdegl : normChars x.toList ≠ ['/', 'i', 'n', '/'] := by
    intro hc
    apply hdeg
    show (normChars x.toList).asString = "/in/"
    rw [hc]
    decide
  have hidem := normChars_idem x.toList h1 h2 h3 hdegl
  show (normChars ((normChars x.toList).asString).toList).asString
    = (normChars x.toList).asString
  have htl : ((normChars x.toList).asString).toList = normChars x.toList := rfl
  rw [htl, hidem]

/-- Witness for C5 amended at the concrete input `"foo"`. -/
theorem normalize_idempotent_conditional_witness :
    normalize_linkedin_handle (normalize_linkedin_handle "foo") =
      normalize_linkedin_handle "foo" :=
  (normalize_idempotent_conditional "foo" (by decide) (by decide) (by decide)
    (by decide)).1
